import Mathlib

set_option maxRecDepth 100000

/-!
Verification development for the L1Beat front-end data layer.

This file shallowly embeds, in Lean 4, the logic of

  * `src/unnamed/part_004` (the api service): `sanitizeString`,
    `sanitizeResponse`, `apiRequestTracker.recordRequest`, `fetchWithCache`,
    `fetchWithRetry`, `getFallbackData`, `getChains`, `getNetworkTPS`;
  * `src/src/services/acpService.ts`: the `parseACPMarkdown` line scan with
    `parseStatus`, `parseDiscussionLink`, `parseRelationships`, and `sortACPs`;
  * `src/unnamed/part_000`: `extractAbstractFromContent`;
  * `src/src/utils/markdownProcessor.ts`: `extractDependencies`.

JavaScript strings are modelled as Lean `String` (a list of characters);
single-character regex/`split`/`replace` operations are modelled directly on
the character list, which matches the JS semantics for the ASCII inputs these
functions handle.  Timestamps (`Date.now()`) are modelled as `Int`.
-/

namespace L1Beat

/-! ### Character-list string helpers (JS string primitives) -/

/-- `s.split(sep)` for a single-character separator, on character lists. -/
def splitChars (sep : Char) : List Char → List (List Char)
  | [] => [[]]
  | c :: cs =>
    match splitChars sep cs with
    | [] => [[]]
    | h :: t => if c = sep then [] :: h :: t else (c :: h) :: t

/-- `s.split(sep)` for a single-character separator. -/
def jsSplit (sep : Char) (s : String) : List String :=
  (splitChars sep s.data).map String.mk

/-- Whether `pat` occurs as a contiguous substring (JS `String.includes`). -/
def charsContains (pat : List Char) : List Char → Bool
  | [] => pat.isEmpty
  | c :: cs => pat.isPrefixOf (c :: cs) || charsContains pat cs

/-- JS `s.includes(pat)`. -/
def jsIncludes (s pat : String) : Bool :=
  charsContains pat.data s.data

/-- JS `s.startsWith(pat)`. -/
def jsStartsWith (s pat : String) : Bool :=
  pat.data.isPrefixOf s.data

/-- JS `s.trim()`: strip leading and trailing whitespace. -/
def trimChars (l : List Char) : List Char :=
  ((l.dropWhile Char.isWhitespace).reverse.dropWhile Char.isWhitespace).reverse

/-- JS `s.trim()` on `String`. -/
def jsTrim (s : String) : String :=
  ⟨trimChars s.data⟩

/-- JS `s.substring(0, n)`: the first `n` characters. -/
def jsSubstringTo (n : Nat) (s : String) : String :=
  ⟨s.data.take n⟩

/-- Replace every occurrence of the single character `t` by the string `r`
(JS `s.replace(/t/g, r)`), on character lists. -/
def replaceCharL (t : Char) (r : List Char) : List Char → List Char
  | [] => []
  | c :: cs => (if c = t then r else [c]) ++ replaceCharL t r cs

/-- Replace every occurrence of the single character `t` by the string `r`. -/
def jsReplaceAllChar (s : String) (t : Char) (r : String) : String :=
  ⟨replaceCharL t r.data s.data⟩

/-- The apostrophe character (U+0027), built numerically. -/
def aposChar : Char := Char.ofNat 39

/-- The HTML entity for the apostrophe, `&#39;`. -/
def aposEntity : String := "&#39" ++ String.singleton aposChar

/-! ### XSS sanitization (`sanitizeString` / `sanitizeResponse`, part_004 lines 5-41) -/

/-- `sanitizeString` from part_004: four sequential global single-character
replacements `<`→`&lt;`, `>`→`&gt;`, `"`→`&quot;`, `'`→`&#39;`. -/
def sanitizeString (value : String) : String :=
  jsReplaceAllChar
    (jsReplaceAllChar
      (jsReplaceAllChar
        (jsReplaceAllChar value '<' "&lt;")
        '>' "&gt;")
      '"' "&quot;")
    aposChar aposEntity

/-- Per-character escape map, as the spec words it: each of the four dangerous
characters becomes its HTML entity, everything else is untouched. -/
def escapeChar (c : Char) : List Char :=
  if c = '<' then "&lt;".data
  else if c = '>' then "&gt;".data
  else if c = '"' then "&quot;".data
  else if c = aposChar then aposEntity.data
  else [c]

/-- Escape of a whole character list, one character at a time. -/
def escapeList : List Char → List Char
  | [] => []
  | c :: cs => escapeChar c ++ escapeList cs

/-- The simultaneous escape of a whole string (spec-side counterpart of
`sanitizeString`). -/
def escapeStr (s : String) : String :=
  ⟨escapeList s.data⟩

/-- JSON-ish values flowing through the api service.  `jundefined`/`jnan` model
the JS `undefined` and `NaN` values produced by the endpoint transforms. -/
inductive JVal where
  | jnull
  | jundefined
  | jbool (b : Bool)
  | jnum (n : Int)
  | jnan
  | jstr (s : String)
  | jarr (xs : List JVal)
  | jobj (fields : List (String × JVal))

mutual

/-- `sanitizeResponse` from part_004: recursively walk the payload, escaping
every string leaf; `null`/`undefined` and non-string primitives pass through;
arrays map elementwise; objects keep their own keys in order. -/
def sanitizeResponse : JVal → JVal
  | .jnull => .jnull
  | .jundefined => .jundefined
  | .jstr s => .jstr (sanitizeString s)
  | .jarr xs => .jarr (sanitizeList xs)
  | .jobj fs => .jobj (sanitizeFields fs)
  | .jbool b => .jbool b
  | .jnum n => .jnum n
  | .jnan => .jnan

def sanitizeList : List JVal → List JVal
  | [] => []
  | v :: vs => sanitizeResponse v :: sanitizeList vs

def sanitizeFields : List (String × JVal) → List (String × JVal)
  | [] => []
  | (k, v) :: fs => (k, sanitizeResponse v) :: sanitizeFields fs

end

theorem replaceCharL_append (t : Char) (r l1 l2 : List Char) :
    replaceCharL t r (l1 ++ l2) = replaceCharL t r l1 ++ replaceCharL t r l2 := by
  induction l1 with
  | nil => rfl
  | cons c cs ih => simp [replaceCharL, ih, List.append_assoc]

theorem sanitize_single (c : Char) :
    replaceCharL aposChar aposEntity.data
      (replaceCharL '"' "&quot;".data
        (replaceCharL '>' "&gt;".data
          (replaceCharL '<' "&lt;".data [c]))) = escapeChar c := by
  by_cases h1 : c = '<'
  · subst h1; decide
  by_cases h2 : c = '>'
  · subst h2; decide
  by_cases h3 : c = '"'
  · subst h3; decide
  by_cases h4 : c = aposChar
  · subst h4; decide
  simp [replaceCharL, escapeChar, h1, h2, h3, h4]

theorem sanitize_chain (l : List Char) :
    replaceCharL aposChar aposEntity.data
      (replaceCharL '"' "&quot;".data
        (replaceCharL '>' "&gt;".data
          (replaceCharL '<' "&lt;".data l))) = escapeList l := by
  induction l with
  | nil => rfl
  | cons c cs ih =>
    have h : replaceCharL '<' "&lt;".data (c :: cs) =
        replaceCharL '<' "&lt;".data [c] ++ replaceCharL '<' "&lt;".data cs := by
      rw [← replaceCharL_append, List.singleton_append]
    rw [h, replaceCharL_append, replaceCharL_append, replaceCharL_append,
      sanitize_single c, ih, escapeList]

/-- The four sequential replacements of `sanitizeString` coincide with the
simultaneous per-character escape. -/
theorem sanitizeString_eq_escapeStr (s : String) : sanitizeString s = escapeStr s :=
  congrArg String.mk (sanitize_chain s.data)

theorem sanitizeList_eq_map (xs : List JVal) :
    sanitizeList xs = xs.map sanitizeResponse := by
  induction xs with
  | nil => rfl
  | cons v vs ih => simp [sanitizeList, ih]

theorem sanitizeFields_eq_map (fs : List (String × JVal)) :
    sanitizeFields fs = fs.map (fun p => (p.1, sanitizeResponse p.2)) := by
  induction fs with
  | nil => rfl
  | cons p fs ih => cases p; simp [sanitizeFields, ih]

/-! ### `fetchWithRetry` (part_004 lines 141-228)

A single `fetch` attempt is modelled by what the browser call produces: a
response (with its `ok` flag, HTTP status, content type and parsed JSON body)
or a thrown exception (`AbortError` from the timeout controller, or a
`TypeError` with a message, as thrown for CORS/network failures).  The stream
of attempts is a function from the attempt index. -/

inductive AttemptResult where
  | response (ok : Bool) (status : Nat) (contentType : Option String) (body : JVal)
  | throwTypeError (msg : String)
  | throwAbort

/-- Error message for a non-`ok` HTTP response (part_004 lines 171-179). -/
def httpErrorMessage (status : Nat) : String :=
  if status = 504 then "Server timeout - The request took too long to complete"
  else if status = 429 then "Rate limit exceeded - Please try again later"
  else "HTTP error! status: " ++ toString status

/-- Outcome of one iteration of the retry loop body. -/
inductive IterOut where
  | retSuccess (data : JVal)
  | retFallback
  | throwMsg (msg : String)
  | recErr (msg : String)

/-- One iteration of the `while` body of `fetchWithRetry`: HTTP-status and
content-type failures fall into the retry path (`recErr`); an abort or a
network `TypeError` is rethrown immediately (`throwMsg`); a CORS `TypeError`
returns the fallback. -/
def attemptStep : AttemptResult → IterOut
  | .response ok status ct body =>
    if ok then
      match ct with
      | some c =>
        if jsIncludes c "application/json" then .retSuccess body
        else .recErr "Invalid content type"
      | none => .recErr "Invalid content type"
    else .recErr (httpErrorMessage status)
  | .throwAbort => .throwMsg "Request timeout - The connection to the server timed out"
  | .throwTypeError msg =>
    if jsIncludes msg "CORS" then .retFallback
    else if jsIncludes msg "Failed to fetch" || jsIncludes msg "Network request failed" then
      .throwMsg "Network error - Please check your internet connection"
    else .recErr msg

/-- What `fetchWithRetry` hands back to its caller: a resolved JSON payload,
the `getFallbackData` value (CORS path), or a rejection with a message. -/
inductive RetryResult where
  | success (data : JVal)
  | fallback
  | error (msg : String)

/-- The retry loop.  `fuel = retries - attempt` counts the remaining allowed
iterations and `calls` the `fetch` invocations made so far; the result is
paired with the total number of `fetch` invocations. -/
def retryGo (f : Nat → AttemptResult) (calls : Nat) (lastError : String) :
    Nat → RetryResult × Nat
  | 0 => (.error lastError, calls)
  | fuel + 1 =>
    match attemptStep (f calls) with
    | .retSuccess d => (.success d, calls + 1)
    | .retFallback => (.fallback, calls + 1)
    | .throwMsg m => (.error m, calls + 1)
    | .recErr m => retryGo f (calls + 1) m fuel

/-- `fetchWithRetry` from part_004: run the loop with the initial
`lastError = 'Unknown error occurred'` and at most `retries` iterations. -/
def fetchWithRetry (f : Nat → AttemptResult) (retries : Nat) : RetryResult × Nat :=
  retryGo f 0 "Unknown error occurred" retries

/-- An attempt stream that fails persistently: every iteration takes the
retry path (as a non-2xx status or a content-type mismatch does). -/
def PersistentFailure (f : Nat → AttemptResult) : Prop :=
  ∀ i, ∃ m, attemptStep (f i) = .recErr m

theorem retryGo_calls_le (f : Nat → AttemptResult)
    (fuel : Nat) : ∀ calls lastError, (retryGo f calls lastError fuel).2 ≤ calls + fuel := by
  induction fuel with
  | zero => intro calls lastError; simp [retryGo]
  | succ n ih =>
    intro calls lastError
    rw [retryGo]
    cases h : attemptStep (f calls) with
    | retSuccess d => simp
    | retFallback => simp
    | throwMsg m => simp
    | recErr m =>
      calc (retryGo f (calls + 1) m n).2 ≤ calls + 1 + n := ih (calls + 1) m
        _ = calls + (n + 1) := by omega

theorem retryGo_persistent (f : Nat → AttemptResult) (hp : PersistentFailure f)
    (fuel : Nat) : ∀ calls lastError, ∃ m, (retryGo f calls lastError fuel).1 = .error m := by
  induction fuel with
  | zero => intro calls lastError; exact ⟨lastError, rfl⟩
  | succ n ih =>
    intro calls lastError
    obtain ⟨m, hm⟩ := hp calls
    rw [retryGo, hm]
    exact ih (calls + 1) m

theorem retryGo_persistent_calls (f : Nat → AttemptResult) (hp : PersistentFailure f)
    (fuel : Nat) : ∀ calls lastError, (retryGo f calls lastError fuel).2 = calls + fuel := by
  induction fuel with
  | zero => intro calls lastError; simp [retryGo]
  | succ n ih =>
    intro calls lastError
    obtain ⟨m, hm⟩ := hp calls
    rw [retryGo, hm, ih (calls + 1) m]
    omega

/-! ### Cache and rate limiting (`apiRequestTracker`, `fetchWithCache`, part_004 lines 43-139)

The module-level mutable state (the cache `Map`, the request-timestamp ledger,
the `isRateLimited` flag and its pending auto-reset timeout) is made explicit
as `ApiState`.  A rate-limit auto-reset scheduled via `setTimeout` is recorded
as the instant it is due to fire; the runtime firing it is the explicit
transition `fireRateLimitTimeout`. -/

/-- `REQUEST_LIMIT = 50` (max requests per minute). -/
def REQUEST_LIMIT : Nat := 50

/-- `REQUEST_PERIOD = 60 * 1000` milliseconds. -/
def REQUEST_PERIOD : Int := 60 * 1000

/-- `CACHE_DURATION = 15 * 60 * 1000` milliseconds. -/
def CACHE_DURATION : Int := 15 * 60 * 1000

/-- One cache entry: `{ data, timestamp }`. -/
structure CacheEntry where
  data : JVal
  timestamp : Int

/-- The module-level mutable state of part_004. -/
structure ApiState where
  /-- the `cache` Map, insertion-ordered association list -/
  cache : List (String × CacheEntry)
  /-- `apiRequestTracker.requests` -/
  requests : List Int
  /-- `apiRequestTracker.isRateLimited` -/
  rateLimited : Bool
  /-- `apiRequestTracker.rateLimitTimeout`: the instant the pending auto-reset fires -/
  rateLimitTimeout : Option Int

/-- `Map.get`: first entry with the given key. -/
def cacheGet (m : List (String × CacheEntry)) (key : String) : Option CacheEntry :=
  (m.find? (fun p => p.1 = key)).map (fun p => p.2)

/-- `Map.set`: update the value in place if the key exists, else append. -/
def cacheSet (m : List (String × CacheEntry)) (key : String) (e : CacheEntry) :
    List (String × CacheEntry) :=
  if m.any (fun p => p.1 = key) then
    m.map (fun p => if p.1 = key then (key, e) else p)
  else m ++ [(key, e)]

/-- `apiRequestTracker.recordRequest()`: push the current timestamp, drop
timestamps outside the rolling window, and if the count now exceeds the limit
while the flag is down, raise the flag and schedule the auto-reset one window
from now. -/
def recordRequest (st : ApiState) (now : Int) : ApiState :=
  if REQUEST_LIMIT <
      ((st.requests ++ [now]).filter (fun t => now - t < REQUEST_PERIOD)).length ∧
      st.rateLimited = false then
    { st with requests := (st.requests ++ [now]).filter (fun t => now - t < REQUEST_PERIOD),
              rateLimited := true, rateLimitTimeout := some (now + REQUEST_PERIOD) }
  else
    { st with requests := (st.requests ++ [now]).filter (fun t => now - t < REQUEST_PERIOD) }

/-- The body of the `setTimeout` scheduled by `recordRequest`: clear the flag
and the ledger. -/
def fireRateLimitTimeout (st : ApiState) : ApiState :=
  { st with rateLimited := false, requests := [], rateLimitTimeout := none }

/-- The cache-miss tail of `fetchWithCache`: record the request, run the
fetcher, and on success sanitize and cache the payload.  The `Nat` component
counts fetcher invocations. -/
def fetchMiss (key : String) (fetcher : Except String JVal) (now : Int)
    (st : ApiState) : Except String JVal × ApiState × Nat :=
  let st1 := recordRequest st now
  match fetcher with
  | .error m => (.error m, st1, 1)
  | .ok d =>
    let sd := sanitizeResponse d
    (.ok sd, { st1 with cache := cacheSet st1.cache key ⟨sd, now⟩ }, 1)

/-- `fetchWithCache` from part_004: serve a fresh cached entry directly; when
rate-limited, serve even a stale cached entry; otherwise record the request
and fetch, sanitizing and caching the result.  The fetcher is modelled by its
outcome (`.ok` payload or `.error` rejection); the `Nat` component of the
result counts how many times the fetcher was invoked. -/
def fetchWithCache (key : String) (fetcher : Except String JVal)
    (duration : Int) (now : Int) (st : ApiState) :
    Except String JVal × ApiState × Nat :=
  match cacheGet st.cache key with
  | some e =>
    if now - e.timestamp < duration then (.ok e.data, st, 0)
    else if st.rateLimited then (.ok e.data, st, 0)
    else fetchMiss key fetcher now st
  | none => fetchMiss key fetcher now st

/-! ### JS value semantics helpers for the endpoint transforms

Property access on `null`/`undefined` throws (modelled as `Option.none`);
on any other non-object value it yields `undefined`.  Numeric coercion
`Number(x)` is modelled for the value shapes these transforms see: numbers,
`null`, booleans, `undefined` and integer-literal strings; other strings and
objects coerce to `NaN` (an approximation of JS's full `ToNumber`, which the
claims never exercise). -/

/-- JS truthiness. -/
def jsTruthy : JVal → Bool
  | .jnull => false
  | .jundefined => false
  | .jbool b => b
  | .jnum n => n != 0
  | .jnan => false
  | .jstr s => s != ""
  | .jarr _ => true
  | .jobj _ => true

/-- Decimal digits to a natural number. -/
def digitsToNat (ds : List Char) : Nat :=
  ds.foldl (fun a c => a * 10 + (c.toNat - 48)) 0

/-- `Number(s)` for an integer-literal string (optionally signed, possibly
surrounded by whitespace); `none` means `NaN`. -/
def parseIntLit (s : String) : Option Int :=
  match trimChars s.data with
  | [] => some 0
  | '-' :: ds => if ds ≠ [] ∧ ds.all Char.isDigit then some (-(digitsToNat ds : Int)) else none
  | '+' :: ds => if ds ≠ [] ∧ ds.all Char.isDigit then some (digitsToNat ds : Int) else none
  | ds => if ds.all Char.isDigit then some (digitsToNat ds : Int) else none

/-- JS `Number(x)`: always a number value (`jnum` or `jnan`). -/
def jsNumber : JVal → JVal
  | .jnum n => .jnum n
  | .jnan => .jnan
  | .jnull => .jnum 0
  | .jbool b => .jnum (if b then 1 else 0)
  | .jundefined => .jnan
  | .jstr s => match parseIntLit s with | some n => .jnum n | none => .jnan
  | .jarr _ => .jnan
  | .jobj _ => .jnan

/-- JS `Number(x) || d`: the coerced number unless it is `0` or `NaN`. -/
def jsNumOr (v : JVal) (d : Int) : Int :=
  match jsNumber v with
  | .jnum n => if n = 0 then d else n
  | _ => d

/-- JS `a || b`. -/
def jsOr (v d : JVal) : JVal :=
  if jsTruthy v then v else d

/-- JS property read `v[k]`: `none` models the `TypeError` thrown on
`null`/`undefined`; a missing key or a non-object receiver yields `undefined`. -/
def jsGet (v : JVal) (k : String) : Option JVal :=
  match v with
  | .jnull => none
  | .jundefined => none
  | .jobj fs => some (((fs.find? (fun p => p.1 = k)).map (fun p => p.2)).getD .jundefined)
  | _ => some .jundefined

/-- `v.map(...)` requires an array (`none` models the `TypeError`). -/
def jsAsArray : JVal → Option (List JVal)
  | .jarr xs => some xs
  | _ => none

/-- Object-literal key write: a duplicate key keeps its original position but
takes the new value; a new key is appended. -/
def setKey (fs : List (String × JVal)) (k : String) (v : JVal) :
    List (String × JVal) :=
  if fs.any (fun p => p.1 = k) then
    fs.map (fun p => if p.1 = k then (k, v) else p)
  else fs ++ [(k, v)]

/-- `{...v}`: the own fields of an object; spreading a non-object contributes
no fields (string spreads, which contribute indexed characters, do not occur
in these transforms). -/
def jsSpreadFields : JVal → List (String × JVal)
  | .jobj fs => fs
  | _ => []

/-- JS template-literal coercion `${v}` (arrays approximated by the empty
string; the transforms only interpolate primitive ids). -/
def jsTemplateStr : JVal → String
  | .jstr s => s
  | .jnum n => toString n
  | .jnan => "NaN"
  | .jbool b => if b then "true" else "false"
  | .jnull => "null"
  | .jundefined => "undefined"
  | .jarr _ => ""
  | .jobj _ => "[object Object]"

/-- `EXPLORER_URL` from part_004. -/
def EXPLORER_URL : String := "https://subnets.avax.network"

/-! ### `getFallbackData`, `getChains`, `getNetworkTPS` (part_004 lines 231-294, 382-417) -/

/-- `getFallbackData` from part_004: the same record is returned for every
requested type `T`.  `now`/`nowIso` stand for `Date.now()` and
`new Date().toISOString()` at the moment the fallback is built. -/
def fallbackDataJ (now : Int) (nowIso : String) : JVal :=
  .jobj [
    ("Chain", .jarr []),
    ("TVLHistory", .jarr []),
    ("TVLHealth", .jobj [("lastUpdate", .jstr nowIso), ("ageInHours", .jnum 0),
      ("tvl", .jnum 0), ("status", .jstr "stale")]),
    ("NetworkTPS", .jobj [("totalTps", .jnum 0), ("chainCount", .jnum 0),
      ("timestamp", .jnum now), ("lastUpdate", .jstr nowIso), ("dataAge", .jnum 0),
      ("dataAgeUnit", .jstr "minutes"), ("updatedAt", .jstr nowIso)]),
    ("TPSHistory", .jarr []),
    ("HealthStatus", .jobj [("status", .jstr "unknown"), ("timestamp", .jnum now)]),
    ("TeleporterMessageData", .jobj [("messages", .jarr []),
      ("metadata", .jobj [("totalMessages", .jnum 0), ("startDate", .jstr nowIso),
        ("endDate", .jstr nowIso), ("updatedAt", .jstr nowIso)])]),
    ("TeleporterDailyData", .jarr [])]

/-- The per-validator transform inside `getChains`. -/
def transformValidator (explorerTruthy : Bool) (v : JVal) : Option JVal := do
  let nodeId ← jsGet v "nodeId"
  let vstat ← jsGet v "validationStatus"
  let up ← jsGet v "uptimePerformance"
  let staked ← jsGet v "amountStaked"
  pure (.jobj [
    ("address", nodeId),
    ("active", .jbool (match vstat with | .jstr s => s == "active" | _ => false)),
    ("uptime", up),
    ("weight", jsNumber staked),
    ("explorerUrl",
      if explorerTruthy then
        .jstr (EXPLORER_URL ++ "/validators/" ++ jsTemplateStr nodeId)
      else .jundefined)])

/-- The per-chain transform inside `getChains`
(`{...chain, tps: ..., validators: ...}`); `none` models a thrown
`TypeError` (caught by the wrapper, which then returns `[]`). -/
def transformChain (chain : JVal) : Option JVal := do
  let tps ← jsGet chain "tps"
  let tpsVal ←
    if jsTruthy tps then do
      let v ← jsGet tps "value"
      let ts ← jsGet tps "timestamp"
      pure (JVal.jobj [("value", jsNumber v), ("timestamp", ts)])
    else pure JVal.jnull
  let validatorsField ← jsGet chain "validators"
  let vs ← jsAsArray validatorsField
  let explorer ← jsGet chain "explorerUrl"
  let newVs ← vs.mapM (transformValidator (jsTruthy explorer))
  pure (.jobj (setKey (setKey (jsSpreadFields chain) "tps" tpsVal)
    "validators" (.jarr newVs)))

/-- `data.map(chain => ...)` from `getChains`. -/
def mapChainsData (data : JVal) : Option JVal := do
  let xs ← jsAsArray data
  let ys ← xs.mapM transformChain
  pure (.jarr ys)

/-- The fetcher closure passed by `getChains` to `fetchWithCache`: run
`fetchWithRetry` (default `retries = 3`), transform the payload, and map any
thrown error to `[]` via the surrounding `try/catch`. -/
def getChainsBody (f : Nat → AttemptResult) (now : Int) (nowIso : String) : JVal :=
  match (fetchWithRetry f 3).1 with
  | .error _ => .jarr []
  | .fallback => (mapChainsData (fallbackDataJ now nowIso)).getD (.jarr [])
  | .success data => (mapChainsData data).getD (.jarr [])

/-- `getChains`: the fetcher body wrapped in `fetchWithCache 'chains'`. -/
def getChains (f : Nat → AttemptResult) (now : Int) (nowIso : String)
    (st : ApiState) : Except String JVal × ApiState × Nat :=
  fetchWithCache "chains" (.ok (getChainsBody f now nowIso)) CACHE_DURATION now st

/-- The zero-valued `NetworkTPS` record produced by the `catch` branch of
`getNetworkTPS`. -/
def networkTPSZero (now : Int) (nowIso : String) : JVal :=
  .jobj [("totalTps", .jnum 0), ("chainCount", .jnum 0), ("timestamp", .jnum now),
    ("lastUpdate", .jstr nowIso), ("dataAge", .jnum 0),
    ("dataAgeUnit", .jstr "minutes"), ("updatedAt", .jstr nowIso)]

/-- The `try` body of `getNetworkTPS` after `fetchWithRetry` resolves:
validate `response.success`/`response.data` (a failure throws, modelled as
`none`) and build the normalized record. -/
def networkTPSTransform (resp : JVal) (now : Int) (nowIso : String) : Option JVal := do
  let succ ← jsGet resp "success"
  let dat ← jsGet resp "data"
  if jsTruthy succ ∧ jsTruthy dat then do
    let totalTps ← jsGet dat "totalTps"
    let chainCount ← jsGet dat "chainCount"
    let tstamp ← jsGet dat "timestamp"
    let lastUpdate ← jsGet dat "lastUpdate"
    let dataAge ← jsGet dat "dataAge"
    let dataAgeUnit ← jsGet dat "dataAgeUnit"
    let updatedAt ← jsGet dat "updatedAt"
    pure (.jobj [
      ("totalTps", .jnum (jsNumOr totalTps 0)),
      ("chainCount", .jnum (jsNumOr chainCount 0)),
      ("timestamp", .jnum (jsNumOr tstamp now)),
      ("lastUpdate", jsOr lastUpdate (.jstr nowIso)),
      ("dataAge", .jnum (jsNumOr dataAge 0)),
      ("dataAgeUnit", jsOr dataAgeUnit (.jstr "minutes")),
      ("updatedAt", jsOr updatedAt (.jstr nowIso))])
  else none

/-- The fetcher closure passed by `getNetworkTPS` to `fetchWithCache`: any
thrown error (rejection of `fetchWithRetry`, or the format check) is caught
and answered with the zero-valued record. -/
def getNetworkTPSBody (f : Nat → AttemptResult) (now : Int) (nowIso : String) : JVal :=
  match (fetchWithRetry f 3).1 with
  | .error _ => networkTPSZero now nowIso
  | .fallback =>
    (networkTPSTransform (fallbackDataJ now nowIso) now nowIso).getD
      (networkTPSZero now nowIso)
  | .success resp =>
    (networkTPSTransform resp now nowIso).getD (networkTPSZero now nowIso)

/-- `getNetworkTPS`: the fetcher body wrapped in `fetchWithCache 'network-tps'`. -/
def getNetworkTPS (f : Nat → AttemptResult) (now : Int) (nowIso : String)
    (st : ApiState) : Except String JVal × ApiState × Nat :=
  fetchWithCache "network-tps" (.ok (getNetworkTPSBody f now nowIso)) CACHE_DURATION now st

/-! ### The ACP markdown parser (`acpService.ts` lines 128-265)

Regex scans over single lines are modelled as explicit left-to-right
character scans with the same leftmost-match semantics. -/

/-- A `\w` word character: `[A-Za-z0-9_]`. -/
def isWordChar (c : Char) : Bool :=
  c.isAlpha || c.isDigit || c = '_'

/-- Whether the character before the current scan position is a word
character (for the `\b` boundary). -/
def prevIsWord : Option Char → Bool
  | none => false
  | some c => isWordChar c

/-- Leftmost match of `/\[([^\]]+)\]|\b(\w+)\b/`: at each position prefer a
non-empty bracketed group, else a word starting at a boundary. -/
def scanStatus (prev : Option Char) : List Char → Option String
  | [] => none
  | c :: cs =>
    if c = '[' then
      if (cs.takeWhile (fun d => d ≠ ']')).length ≠ 0 ∧
          (cs.drop (cs.takeWhile (fun d => d ≠ ']')).length).head? = some ']' then
        some (String.mk (cs.takeWhile (fun d => d ≠ ']')))
      else scanStatus (some c) cs
    else if isWordChar c ∧ ¬prevIsWord prev then
      some (String.mk ((c :: cs).takeWhile isWordChar))
    else scanStatus (some c) cs

/-- `parseStatus` from acpService.ts: the bracketed label if present, else the
first word, else `'Unknown'`; trimmed. -/
def parseStatus (text : String) : String :=
  jsTrim ((scanStatus none text.data).getD "Unknown")

/-- Leftmost match of `/\[Discussion\]\(([^)]+)\)/`: the URL of a literal
`[Discussion](...)` link. -/
def scanDiscussion : List Char → Option String
  | [] => none
  | c :: rest =>
    if "[Discussion](".data.isPrefixOf (c :: rest) then
      if (((c :: rest).drop 13).takeWhile (fun d => d ≠ ')')).length ≠ 0 ∧
          (((c :: rest).drop 13).drop
            ((((c :: rest).drop 13).takeWhile (fun d => d ≠ ')')).length)).head? = some ')' then
        some (String.mk (((c :: rest).drop 13).takeWhile (fun d => d ≠ ')')))
      else scanDiscussion rest
    else scanDiscussion rest

/-- `parseDiscussionLink` from acpService.ts; `none` models the `undefined`
returned when no `[Discussion](...)` link occurs in the cell. -/
def parseDiscussionLink (text : String) : Option String :=
  scanDiscussion text.data

/-- Fuel-driven scan for `/ACP-(\d+)/g`: each step either advances one
character or jumps past a whole match, so the input length bounds the number
of steps; the fuel makes the jump structurally recursive (and hence
kernel-reducible). -/
def scanACPNumsGo : Nat → List Char → List String
  | _, [] => []
  | 0, _ => []
  | fuel + 1, c :: rest =>
    if "ACP-".data.isPrefixOf (c :: rest) then
      if (((c :: rest).drop 4).takeWhile Char.isDigit).isEmpty then
        scanACPNumsGo fuel rest
      else
        String.mk (((c :: rest).drop 4).takeWhile Char.isDigit) ::
          scanACPNumsGo fuel (((c :: rest).drop 4).drop
            ((((c :: rest).drop 4).takeWhile Char.isDigit).length))
    else scanACPNumsGo fuel rest

/-- All matches of `/ACP-(\d+)/g` (non-overlapping, left to right), as the
captured digit groups. -/
def scanACPNums (l : List Char) : List String :=
  scanACPNumsGo l.length l

/-- `parseRelationships` from acpService.ts: every `ACP-<digits>` match, with
the `ACP-` prefix stripped, in match order (no deduplication). -/
def parseRelationships (text : String) : List String :=
  scanACPNums text.data

/-- `[...new Set(l)]`: deduplicate keeping the first occurrence, in order. -/
def dedupGo (seen : List String) : List String → List String
  | [] => []
  | x :: rest => if x ∈ seen then dedupGo seen rest else x :: dedupGo (x :: seen) rest

/-- `[...new Set(l)]`. -/
def jsSetDedup (l : List String) : List String :=
  dedupGo [] l

/-- `extractDependencies` from markdownProcessor.ts, as a function of the
document's extracted plain text: all `ACP-<digits>` references except
`ACP-0`, deduplicated. -/
def extractDependencies (allText : String) : List String :=
  jsSetDedup (((scanACPNums allText.data).map (fun n => "ACP-" ++ n)).filter
    (fun r => r ≠ "ACP-0"))

/-- The value cell of a metadata table row: `line.split('|')[2]` (the callers
guard with `includes`, so index 2 exists). -/
def tableCell (line : String) : String :=
  (jsSplit '|' line).getD 2 ""

/-- The loop state of `parseACPMarkdown` in acpService.ts.  The raw author
cell is kept as scanned (`parseAuthors`, which only splits it into
name/handle pairs, is not needed by any claim); the derived post-passes
(`extractTags`, `determineComplexity`, reading time) are likewise separate
from this scan.  `discussion = none` models the `undefined` returned by
`parseDiscussionLink`. -/
structure ParseState where
  inTable : Bool := false
  afterTable : Bool := false
  title : String := ""
  authorsRaw : String := ""
  status : String := ""
  discussion : Option String := some ""
  track : String := ""
  dependencies : List String := []
  replaces : List String := []
  supersededBy : List String := []
  abstract : String := ""
deriving DecidableEq

/-- Abstract truncation in `parseACPMarkdown` (acpService.ts lines 186-189):
truncate to 200 characters and append `...` only when strictly longer. -/
def truncAbstract (p : String) : String :=
  if 200 < p.length then jsSubstringTo 200 p ++ "..." else p

/-- The metadata-table row dispatch of the loop. -/
def stepTable (st : ParseState) (line : String) : ParseState :=
  if jsIncludes line "| **Title** |" then { st with title := jsTrim (tableCell line) }
  else if jsIncludes line "| **Author(s)** |" then { st with authorsRaw := tableCell line }
  else if jsIncludes line "| **Status** |" then
    { st with status := parseStatus (tableCell line),
              discussion := parseDiscussionLink (tableCell line) }
  else if jsIncludes line "| **Track** |" then { st with track := jsTrim (tableCell line) }
  else if jsIncludes line "| **Depends** |" || jsIncludes line "| **Dependencies** |" then
    { st with dependencies := parseRelationships (tableCell line) }
  else if jsIncludes line "| **Replaces** |" then
    { st with replaces := parseRelationships (tableCell line) }
  else if jsIncludes line "| **Superseded-By** |" then
    { st with supersededBy := parseRelationships (tableCell line) }
  else st

/-- The abstract capture of the loop (first substantial paragraph after the
table). -/
def stepAbstract (st : ParseState) (line : String) : ParseState :=
  if st.afterTable ∧ st.abstract = "" ∧ jsTrim line ≠ "" ∧
      ¬jsStartsWith line "#" ∧ ¬jsStartsWith line "|" then
    { st with abstract := truncAbstract (jsTrim line) }
  else st

/-- One iteration of the `parseACPMarkdown` line loop. -/
def parseStep (st : ParseState) (line : String) : ParseState :=
  if jsTrim line = "" then st
  else if jsStartsWith line "| ACP |" then { st with inTable := true }
  else if st.inTable ∧ jsStartsWith line "##" then
    { st with afterTable := true, inTable := false }
  else stepAbstract (if st.inTable then stepTable st line else st) line

/-- The full line scan of `parseACPMarkdown` (acpService.ts lines 147-191). -/
def parseACPMarkdownScan (markdown : String) : ParseState :=
  (jsSplit '\n' markdown).foldl parseStep {}

/-! ### `extractAbstractFromContent` (part_000 lines 297-325) -/

/-- The line loop of `extractAbstractFromContent`: skip blanks, treat `|`
lines as tables, close a table at a heading, and return the first
out-of-table non-heading line longer than 50 characters, truncated to 200
characters with `...` appended whenever the truncation has length exactly
200. -/
def eafcGo (inTable : Bool) : List String → String
  | [] => "No abstract available."
  | line :: rest =>
    if jsTrim line = "" then eafcGo inTable rest
    else if jsStartsWith (jsTrim line) "|" then eafcGo true rest
    else if inTable ∧ jsStartsWith (jsTrim line) "#" then eafcGo false rest
    else if ¬inTable ∧ ¬jsStartsWith (jsTrim line) "#" ∧ 50 < (jsTrim line).length then
      if (jsSubstringTo 200 (jsTrim line)).length = 200 then
        jsSubstringTo 200 (jsTrim line) ++ "..."
      else jsSubstringTo 200 (jsTrim line)
    else eafcGo inTable rest

/-- `extractAbstractFromContent` from part_000. -/
def extractAbstractFromContent (markdown : String) : String :=
  eafcGo false (jsSplit '\n' markdown)

/-! ### `sortACPs` (acpService.ts lines 342-371)

To make the frame effect (`[...acps].sort` must not mutate its input)
expressible, JS arrays are modelled as references into an explicit heap: a
list of array contents indexed by allocation order.  `[...acps]` allocates a
fresh cell copying the input's contents and `.sort(cmp)` mutates that fresh
cell in place. -/

/-- The fields of a `LocalACP` record inspected by the sort comparator. -/
structure LocalACP where
  number : String
  title : String
  status : String
  track : String
deriving DecidableEq

/-- JS `toLowerCase` (ASCII). -/
def toLowerStr (s : String) : String :=
  ⟨s.data.map Char.toLower⟩

/-- JS string `<`: lexicographic comparison of code units. -/
def lexLtChars : List Char → List Char → Bool
  | [], [] => false
  | [], _ :: _ => true
  | _ :: _, [] => false
  | a :: as, b :: bs =>
    if a.val < b.val then true
    else if b.val < a.val then false
    else lexLtChars as bs

/-- The shared tail of the comparator: `aVal < bVal ? ±1 : aVal > bVal ? ∓1
: 0` for lowercased string values. -/
def cmpStrOrd (sortOrder : String) (x y : String) : Int :=
  if lexLtChars x.data y.data then (if sortOrder = "asc" then -1 else 1)
  else if lexLtChars y.data x.data then (if sortOrder = "asc" then 1 else -1)
  else 0

/-- The comparator of `sortACPs`.  `Number(...)` of a non-numeric id is
`NaN`, whose comparisons are all false, giving `0` exactly as in JS. -/
def acpCompare (sortBy sortOrder : String) (a b : LocalACP) : Int :=
  if sortBy = "number" then
    match parseIntLit a.number, parseIntLit b.number with
    | some x, some y =>
      if x < y then (if sortOrder = "asc" then -1 else 1)
      else if y < x then (if sortOrder = "asc" then 1 else -1)
      else 0
    | _, _ => 0
  else if sortBy = "title" then cmpStrOrd sortOrder (toLowerStr a.title) (toLowerStr b.title)
  else if sortBy = "status" then cmpStrOrd sortOrder (toLowerStr a.status) (toLowerStr b.status)
  else if sortBy = "track" then cmpStrOrd sortOrder (toLowerStr a.track) (toLowerStr b.track)
  else 0

/-- Insertion step of the comparator-driven in-place sort. -/
def insertCmp (cmp : LocalACP → LocalACP → Int) (x : LocalACP) :
    List LocalACP → List LocalACP
  | [] => [x]
  | y :: rest => if cmp x y < 0 then x :: y :: rest else y :: insertCmp cmp x rest

/-- `Array.prototype.sort(cmp)` on the contents of one array, as an insertion
sort driven by the comparator (no claim depends on the precise order). -/
def sortByCmp (cmp : LocalACP → LocalACP → Int) : List LocalACP → List LocalACP
  | [] => []
  | x :: rest => insertCmp cmp x (sortByCmp cmp rest)

/-- `sortACPs`: spread-copy the input array into a fresh heap cell, sort that
cell in place, and return the heap together with the reference to the fresh
cell. -/
def sortACPs (h : List (List LocalACP)) (arr : Nat) (sortBy sortOrder : String) :
    List (List LocalACP) × Nat :=
  ((h ++ [h.getD arr []]).set h.length
    (sortByCmp (acpCompare sortBy sortOrder) (h.getD arr [])), h.length)

/-! ## Claim theorems -/

/-- **C1 counterexample.**  The claim "a later call with `t - t0 >= d` invokes
`f` exactly once" fails when the process-wide rate-limited flag is set: with a
stale entry for `k` cached at `t0 = 0`, duration `1000` and `now = 5000`
(`now - t0 >= d`), a rate-limited state serves the stale data and the fetcher
is invoked `0` times, not once. -/
theorem c1_counterexample :
    (5000 : Int) - 0 ≥ 1000 ∧
    fetchWithCache "k" (.ok (.jstr "w")) 1000 5000
        ⟨[("k", ⟨.jstr "v", 0⟩)], [], true, none⟩ =
      (.ok (.jstr "v"), ⟨[("k", ⟨.jstr "v", 0⟩)], [], true, none⟩, 0) ∧
    (0 : Nat) ≠ 1 :=
  ⟨by decide, rfl, by decide⟩

/-- **C3 (amended).**  If `fetchWithCache(k, f, d)` stored an entry at `t0`,
a later call at `now` with `now - t0 < d` returns the stored data without
invoking the fetcher; with `now - t0 >= d` it invokes the fetcher exactly
once — provided the rate-limited flag is unset; when the flag is set, the
stale stored data is returned without any invocation.  (C1.) -/
theorem c1_cache_freshness (key : String) (fetcher : Except String JVal)
    (d now t0 : Int) (st : ApiState) (data : JVal)
    (h : cacheGet st.cache key = some ⟨data, t0⟩) :
    (now - t0 < d → fetchWithCache key fetcher d now st = (.ok data, st, 0)) ∧
    (¬(now - t0 < d) → st.rateLimited = true →
      fetchWithCache key fetcher d now st = (.ok data, st, 0)) ∧
    (¬(now - t0 < d) → st.rateLimited = false →
      (fetchWithCache key fetcher d now st).2.2 = 1) := by
  refine ⟨?_, ?_, ?_⟩
  · intro h1
    unfold fetchWithCache
    rw [h]
    simp [h1]
  · intro h1 h2
    unfold fetchWithCache
    rw [h]
    simp [h1, h2]
  · intro h1 h2
    unfold fetchWithCache
    rw [h]
    simp [h1, h2, fetchMiss]
    cases fetcher <;> simp

/-- Witness for `c1_cache_freshness` at a concrete cached state. -/
theorem c1_cache_freshness_witness :
    (((500 : Int) - 0 < 1000 →
      fetchWithCache "k" (.ok (.jstr "w")) 1000 500
          ⟨[("k", ⟨.jstr "v", 0⟩)], [], false, none⟩ =
        (.ok (.jstr "v"), ⟨[("k", ⟨.jstr "v", 0⟩)], [], false, none⟩, 0)) ∧
    (¬((500 : Int) - 0 < 1000) →
      (⟨[("k", ⟨.jstr "v", 0⟩)], [], false, none⟩ : ApiState).rateLimited = true →
      fetchWithCache "k" (.ok (.jstr "w")) 1000 500
          ⟨[("k", ⟨.jstr "v", 0⟩)], [], false, none⟩ =
        (.ok (.jstr "v"), ⟨[("k", ⟨.jstr "v", 0⟩)], [], false, none⟩, 0)) ∧
    (¬((500 : Int) - 0 < 1000) →
      (⟨[("k", ⟨.jstr "v", 0⟩)], [], false, none⟩ : ApiState).rateLimited = false →
      (fetchWithCache "k" (.ok (.jstr "w")) 1000 500
          ⟨[("k", ⟨.jstr "v", 0⟩)], [], false, none⟩).2.2 = 1)) :=
  c1_cache_freshness "k" (.ok (.jstr "w")) 1000 500 0
    ⟨[("k", ⟨.jstr "v", 0⟩)], [], false, none⟩ (.jstr "v") rfl

/-- **C2.**  A persistently failing fetch stream makes `fetchWithRetry`
invoke the underlying fetch at most `retries` times, after which the last
error is surfaced as a rejection. -/
theorem c2_retry_bound (f : Nat → AttemptResult) (retries : Nat)
    (hp : PersistentFailure f) :
    (fetchWithRetry f retries).2 ≤ retries ∧
    ∃ m, (fetchWithRetry f retries).1 = .error m := by
  constructor
  · simpa using retryGo_calls_le f retries 0 "Unknown error occurred"
  · exact retryGo_persistent f hp retries 0 "Unknown error occurred"

/-- Witness for `c2_retry_bound`: a stream of HTTP 500 responses with
`retries = 3`. -/
theorem c2_retry_bound_witness :
    (fetchWithRetry (fun _ => .response false 500 none .jnull) 3).2 ≤ 3 ∧
    ∃ m, (fetchWithRetry (fun _ => .response false 500 none .jnull) 3).1 = .error m :=
  c2_retry_bound (fun _ => .response false 500 none .jnull) 3
    (fun _ => ⟨httpErrorMessage 500, rfl⟩)

/-- **C6 counterexample.**  Transport-level network failures are *not*
retried like HTTP-status errors: with `retries = 3`, a persistent
`Failed to fetch` `TypeError` leads to exactly `1` fetch invocation, while a
persistent HTTP 500 leads to `3`. -/
theorem c6_counterexample :
    (fetchWithRetry (fun _ => .throwTypeError "Failed to fetch") 3).2 = 1 ∧
    (fetchWithRetry (fun _ => .response false 500 none .jnull) 3).2 = 3 ∧
    (1 : Nat) ≠ 3 :=
  ⟨rfl, rfl, by decide⟩

/-- **C6 (amended).**  A transport-level network failure (a `TypeError`
whose message is `Failed to fetch`) on the first attempt is surfaced
immediately as the distinct message
`Network error - Please check your internet connection`, after exactly one
fetch invocation and with no retries, for any positive retry budget. -/
theorem c6_network_immediate (f : Nat → AttemptResult) (retries : Nat)
    (hr : 1 ≤ retries) (hf : f 0 = .throwTypeError "Failed to fetch") :
    fetchWithRetry f retries =
      (.error "Network error - Please check your internet connection", 1) := by
  cases retries with
  | zero => omega
  | succ n =>
    rw [fetchWithRetry, retryGo, hf]
    rfl

/-- Witness for `c6_network_immediate` with `retries = 3`. -/
theorem c6_network_immediate_witness :
    fetchWithRetry (fun _ => .throwTypeError "Failed to fetch") 3 =
      (.error "Network error - Please check your internet connection", 1) :=
  c6_network_immediate (fun _ => .throwTypeError "Failed to fetch") 3
    (by decide) rfl

/-- **C9.**  While the rate-limited flag is set, any `fetchWithCache` call
whose key has a cached entry (fresh or stale) answers with the cached data,
leaves the state untouched and performs no fetch; and the call of
`recordRequest` that raises the flag schedules the auto-reset one
`REQUEST_PERIOD` after it, the reset clearing the flag. -/
theorem c9_rate_limited (key : String) (fetcher : Except String JVal)
    (d now t : Int) (st st2 : ApiState) (e : CacheEntry)
    (hrl : st.rateLimited = true)
    (hc : cacheGet st.cache key = some e)
    (hwas : st2.rateLimited = false)
    (hflip : (recordRequest st2 t).rateLimited = true) :
    fetchWithCache key fetcher d now st = (.ok e.data, st, 0) ∧
    (recordRequest st2 t).rateLimitTimeout = some (t + REQUEST_PERIOD) ∧
    (fireRateLimitTimeout (recordRequest st2 t)).rateLimited = false := by
  refine ⟨?_, ?_, rfl⟩
  · unfold fetchWithCache
    rw [hc]
    by_cases hfresh : now - e.timestamp < d
    · simp [hfresh]
    · simp [hfresh, hrl]
  · unfold recordRequest at hflip ⊢
    split at hflip
    · rename_i hcond
      rw [if_pos hcond]
    · simp [hwas] at hflip

/-- Witness for `c9_rate_limited`: a rate-limited state with a stale entry,
and a ledger of 50 in-window requests that the 51st call tips over the
limit. -/
theorem c9_rate_limited_witness :
    fetchWithCache "k" (.ok (.jstr "w")) 1000 5000
        ⟨[("k", ⟨.jstr "v", 0⟩)], [], true, none⟩ =
      (.ok (.jstr "v"), ⟨[("k", ⟨.jstr "v", 0⟩)], [], true, none⟩, 0) ∧
    (recordRequest ⟨[], List.replicate 50 0, false, none⟩ 0).rateLimitTimeout =
      some (0 + REQUEST_PERIOD) ∧
    (fireRateLimitTimeout
      (recordRequest ⟨[], List.replicate 50 0, false, none⟩ 0)).rateLimited = false :=
  c9_rate_limited "k" (.ok (.jstr "w")) 1000 5000 0
    ⟨[("k", ⟨.jstr "v", 0⟩)], [], true, none⟩
    ⟨[], List.replicate 50 0, false, none⟩ ⟨.jstr "v", 0⟩
    rfl rfl rfl (by decide)

/-- **C3 counterexample.**  On a metadata table whose status row is
`| **Status** | [Proposed](https://forum.example/t/42) |`, the parser does
extract `status = "Proposed"`, but the discussion link is *not* extracted
(`parseDiscussionLink` only matches a literal `[Discussion](...)` link), so
the claimed `discussion = "https://forum.example/t/42"` is false. -/
theorem c3_counterexample :
    (parseACPMarkdownScan
      "| ACP | 42 |\n| **Status** | [Proposed](https://forum.example/t/42) |").status =
      "Proposed" ∧
    (parseACPMarkdownScan
      "| ACP | 42 |\n| **Status** | [Proposed](https://forum.example/t/42) |").discussion ≠
      some "https://forum.example/t/42" :=
  ⟨by decide, by decide⟩

/-- **C3 (amended).**  On that input the parser produces
`status = "Proposed"` and leaves the discussion link undefined: the status
cell's bracketed label is taken as the status, while a discussion URL is only
extracted from a literal `[Discussion](url)` pattern, which this cell lacks. -/
theorem c3_status_parsing :
    (parseACPMarkdownScan
      "| ACP | 42 |\n| **Status** | [Proposed](https://forum.example/t/42) |").status =
      "Proposed" ∧
    (parseACPMarkdownScan
      "| ACP | 42 |\n| **Status** | [Proposed](https://forum.example/t/42) |").discussion =
      none ∧
    parseStatus " [Proposed](https://forum.example/t/42) " = "Proposed" ∧
    parseDiscussionLink " [Proposed](https://forum.example/t/42) " = none :=
  ⟨by decide, by decide, by decide, by decide⟩

/-- The shape every abstract produced by the acpService.ts scan has: still
empty, or the truncation of some trimmed source paragraph. -/
def AbstractShape (a : String) : Prop :=
  a = "" ∨ ∃ p, a = truncAbstract p

theorem stepTable_abstract (st : ParseState) (line : String) :
    (stepTable st line).abstract = st.abstract := by
  unfold stepTable
  repeat' split
  all_goals rfl

theorem stepAbstract_shape (st : ParseState) (line : String)
    (h : AbstractShape st.abstract) : AbstractShape (stepAbstract st line).abstract := by
  unfold stepAbstract
  split
  · exact Or.inr ⟨jsTrim line, rfl⟩
  · exact h

theorem parseStep_shape (st : ParseState) (line : String)
    (h : AbstractShape st.abstract) : AbstractShape (parseStep st line).abstract := by
  unfold parseStep
  split
  · exact h
  split
  · exact h
  split
  · exact h
  · apply stepAbstract_shape
    split
    · rw [stepTable_abstract]
      exact h
    · exact h

theorem foldl_parseStep_shape (lines : List String) : ∀ st : ParseState,
    AbstractShape st.abstract → AbstractShape ((lines.foldl parseStep st).abstract) := by
  induction lines with
  | nil => intro st h; exact h
  | cons l ls ih => intro st h; exact ih _ (parseStep_shape st l h)

theorem length_mk (l : List Char) : (String.mk l).length = l.length := rfl

theorem truncAbstract_length (p : String) : (truncAbstract p).length ≤ 203 := by
  unfold truncAbstract
  split
  · rename_i h
    have h3 : (jsSubstringTo 200 p ++ "...").length = (p.data.take 200).length + 3 := by
      rw [String.length_append]
      rfl
    rw [h3, List.length_take]
    omega
  · omega

/-- Characterization of `extractAbstractFromContent`: the sentinel, or the
200-character truncation of a trimmed line longer than 50 characters with
`...` appended exactly when the truncation has length 200. -/
theorem eafcGo_shape (lines : List String) : ∀ inT : Bool,
    eafcGo inT lines = "No abstract available." ∨
    ∃ p, 50 < p.length ∧
      eafcGo inT lines =
        (if (jsSubstringTo 200 p).length = 200 then jsSubstringTo 200 p ++ "..."
         else jsSubstringTo 200 p) := by
  induction lines with
  | nil => intro inT; exact Or.inl rfl
  | cons l ls ih =>
    intro inT
    unfold eafcGo
    split
    · exact ih inT
    split
    · exact ih true
    split
    · exact ih false
    split
    · rename_i h4
      exact Or.inr ⟨jsTrim l, h4.2.2, rfl⟩
    · exact ih inT

/-- **C4 counterexample.**  A document consisting of one paragraph of exactly
200 characters is *not* returned verbatim by `extractAbstractFromContent`
(part_000): the ellipsis is appended although nothing was cut, yielding a
203-character abstract. -/
theorem c4_counterexample :
    (String.mk (List.replicate 200 'a')).length = 200 ∧
    extractAbstractFromContent (String.mk (List.replicate 200 'a')) =
      String.mk (List.replicate 200 'a') ++ "..." ∧
    String.mk (List.replicate 200 'a') ++ "..." ≠ String.mk (List.replicate 200 'a') := by
  refine ⟨by decide, rfl, by decide⟩

/-- **C4 (amended).**  In both implementations the abstract never exceeds 203
characters.  In `parseACPMarkdown` (acpService.ts) the ellipsis is appended
exactly once and only when the source paragraph exceeds 200 characters — an
exactly-200-character paragraph is returned verbatim.  In
`extractAbstractFromContent` (part_000), however, the ellipsis is appended
whenever the 200-character truncation has length exactly 200, hence also when
the paragraph is exactly 200 characters long. -/
theorem c4_abstract_length :
    (∀ md, ((parseACPMarkdownScan md).abstract).length ≤ 203) ∧
    (∀ p : String, p.length ≤ 200 → truncAbstract p = p) ∧
    (∀ p : String, 200 < p.length →
      truncAbstract p = jsSubstringTo 200 p ++ "..." ∧ (truncAbstract p).length = 203) ∧
    (∀ md, (extractAbstractFromContent md).length ≤ 203) ∧
    (∀ md, extractAbstractFromContent md = "No abstract available." ∨
      ∃ p, 50 < p.length ∧ extractAbstractFromContent md =
        (if (jsSubstringTo 200 p).length = 200 then jsSubstringTo 200 p ++ "..."
         else jsSubstringTo 200 p)) := by
  have hlen : ∀ p : String, (jsSubstringTo 200 p).length = (p.data.take 200).length := by
    intro p; rfl
  refine ⟨?_, ?_, ?_, ?_, ?_⟩
  · intro md
    have h := foldl_parseStep_shape (jsSplit '\n' md) {} (Or.inl rfl)
    unfold parseACPMarkdownScan
    rcases h with h | ⟨p, hp⟩
    · rw [h]; decide
    · rw [hp]; exact truncAbstract_length p
  · intro p hp
    unfold truncAbstract
    rw [if_neg]
    omega
  · intro p hp
    refine ⟨if_pos hp, ?_⟩
    unfold truncAbstract
    rw [if_pos hp, String.length_append, hlen, List.length_take]
    have h3 : "...".length = 3 := rfl
    have h4 : p.length = p.data.length := rfl
    rw [h3]
    omega
  · intro md
    rcases eafcGo_shape (jsSplit '\n' md) false with h | ⟨p, hp, heq⟩
    · unfold extractAbstractFromContent
      rw [h]
      decide
    · unfold extractAbstractFromContent
      rw [heq]
      split
      · rename_i hif
        rw [String.length_append, hif]
        decide
      · rw [hlen, List.length_take]
        omega
  · intro md
    exact eafcGo_shape (jsSplit '\n' md) false

/-- **C8 counterexample.**  A dependencies row mentioning `ACP-13` twice is
parsed by `parseRelationships` (acpService.ts) into `["13", "13"]`: the
resulting list contains a duplicate. -/
theorem c8_counterexample :
    (parseACPMarkdownScan "| ACP | 20 |\n| **Depends** | ACP-13, ACP-13 |").dependencies =
      ["13", "13"] ∧
    ¬ (["13", "13"] : List String).Nodup :=
  ⟨by decide, by decide⟩

theorem dedupGo_not_mem_seen (l : List String) : ∀ (seen : List String) (x : String),
    x ∈ dedupGo seen l → x ∉ seen := by
  induction l with
  | nil => intro seen x h; simp [dedupGo] at h
  | cons a as ih =>
    intro seen x h
    unfold dedupGo at h
    split at h
    · exact ih seen x h
    · rename_i hnot
      rcases List.mem_cons.mp h with heq | hmem
      · subst heq
        simpa using hnot
      · intro hx
        exact ih (a :: seen) x hmem (List.mem_cons_of_mem a hx)

theorem dedupGo_nodup (l : List String) : ∀ seen : List String,
    (dedupGo seen l).Nodup := by
  induction l with
  | nil => intro seen; simp [dedupGo]
  | cons a as ih =>
    intro seen
    unfold dedupGo
    split
    · exact ih seen
    · refine List.nodup_cons.mpr ⟨?_, ih (a :: seen)⟩
      intro hmem
      exact dedupGo_not_mem_seen as (a :: seen) a hmem (List.mem_cons_self a seen)

/-- **C8 (amended).**  `extractDependencies` (markdownProcessor.ts) returns a
deduplicated list — each referenced document appears at most once — but
`parseRelationships` (acpService.ts), which fills the
dependencies/replaces/supersededBy fields of the markdown parser, performs no
deduplication and keeps every match. -/
theorem c8_dedup :
    (∀ t : String, (extractDependencies t).Nodup) ∧
    parseRelationships "| ACP-13, ACP-13 |" = ["13", "13"] := by
  refine ⟨?_, by decide⟩
  intro t
  unfold extractDependencies jsSetDedup
  exact dedupGo_nodup _ []

theorem find?_map_replace (m : List (String × CacheEntry)) (k : String) (e : CacheEntry) :
    m.any (fun p => p.1 = k) = true →
    (m.map (fun p => if p.1 = k then (k, e) else p)).find? (fun p => p.1 = k) =
      some (k, e) := by
  induction m with
  | nil => intro h; simp at h
  | cons p m ih =>
    intro h
    by_cases hp : p.1 = k
    · simp [List.find?_cons_of_pos, hp]
    · rw [List.map_cons, if_neg hp, List.find?_cons_of_neg _ (by simp [hp])]
      apply ih
      simpa [hp] using h

theorem find?_append_new (m : List (String × CacheEntry)) (k : String) (e : CacheEntry) :
    m.any (fun p => p.1 = k) = false →
    (m ++ [(k, e)]).find? (fun p => p.1 = k) = some (k, e) := by
  induction m with
  | nil => intro _; simp [List.find?]
  | cons p m ih =>
    intro h
    simp only [List.any_cons, Bool.or_eq_false_iff] at h
    rw [List.cons_append, List.find?_cons_of_neg _ (by simp [h.1])]
    exact ih h.2

/-- A freshly `Map.set` entry is what `Map.get` finds. -/
theorem cacheGet_cacheSet (m : List (String × CacheEntry)) (k : String) (e : CacheEntry) :
    cacheGet (cacheSet m k e) k = some e := by
  unfold cacheGet cacheSet
  split
  · rename_i h
    rw [find?_map_replace m k e h]
    rfl
  · rename_i h
    rw [find?_append_new m k e (by simp only [Bool.not_eq_true] at h; exact h)]
    rfl

/-- **C5.**  On a cache miss with a successful fetch, `fetchWithCache` both
returns and caches exactly `sanitizeResponse` of the fetched payload, after
one fetcher invocation; and `sanitizeResponse` is the recursive sanitization
the claim describes: string leaves are escaped character by character
(`<`, `>`, `"`, `'` to their HTML entities, all other characters kept),
arrays and objects are walked structurally with keys preserved, and
non-string leaves pass through unchanged. -/
theorem c5_sanitization (key : String) (d : JVal) (dur now : Int) (st : ApiState)
    (s0 : String) (xs0 : List JVal) (fs0 : List (String × JVal)) (b0 : Bool) (n0 : Int)
    (h : cacheGet st.cache key = none) :
    (fetchWithCache key (.ok d) dur now st).1 = .ok (sanitizeResponse d) ∧
    cacheGet (fetchWithCache key (.ok d) dur now st).2.1.cache key =
      some ⟨sanitizeResponse d, now⟩ ∧
    (fetchWithCache key (.ok d) dur now st).2.2 = 1 ∧
    sanitizeResponse (.jstr s0) = .jstr (escapeStr s0) ∧
    sanitizeString s0 = escapeStr s0 ∧
    sanitizeResponse (.jarr xs0) = .jarr (xs0.map sanitizeResponse) ∧
    sanitizeResponse (.jobj fs0) = .jobj (fs0.map (fun p => (p.1, sanitizeResponse p.2))) ∧
    sanitizeResponse .jnull = .jnull ∧
    sanitizeResponse .jundefined = .jundefined ∧
    sanitizeResponse (.jbool b0) = .jbool b0 ∧
    sanitizeResponse (.jnum n0) = .jnum n0 := by
  have hfc : fetchWithCache key (.ok d) dur now st =
      (.ok (sanitizeResponse d),
       { recordRequest st now with
          cache := cacheSet (recordRequest st now).cache key ⟨sanitizeResponse d, now⟩ },
       1) := by
    unfold fetchWithCache
    rw [h]
    rfl
  refine ⟨by rw [hfc], ?_, by rw [hfc], ?_, sanitizeString_eq_escapeStr s0, ?_, ?_,
    rfl, rfl, rfl, rfl⟩
  · rw [hfc]
    exact cacheGet_cacheSet _ _ _
  · simp [sanitizeResponse, sanitizeString_eq_escapeStr]
  · simp [sanitizeResponse, sanitizeList_eq_map]
  · simp [sanitizeResponse, sanitizeFields_eq_map]

/-- Witness for `c5_sanitization` on an empty cache and the payload
`{a: "<"}`. -/
theorem c5_sanitization_witness :
    (fetchWithCache "k" (.ok (.jobj [("a", .jstr "<")])) 1000 0
      ⟨[], [], false, none⟩).1 = .ok (sanitizeResponse (.jobj [("a", .jstr "<")])) ∧
    cacheGet (fetchWithCache "k" (.ok (.jobj [("a", .jstr "<")])) 1000 0
      ⟨[], [], false, none⟩).2.1.cache "k" =
      some ⟨sanitizeResponse (.jobj [("a", .jstr "<")]), 0⟩ ∧
    (fetchWithCache "k" (.ok (.jobj [("a", .jstr "<")])) 1000 0
      ⟨[], [], false, none⟩).2.2 = 1 ∧
    sanitizeResponse (.jstr "a<b") = .jstr (escapeStr "a<b") ∧
    sanitizeString "a<b" = escapeStr "a<b" ∧
    sanitizeResponse (.jarr [.jnum 3]) = .jarr ([.jnum 3].map sanitizeResponse) ∧
    sanitizeResponse (.jobj [("x", .jbool true)]) =
      .jobj ([("x", .jbool true)].map (fun p => (p.1, sanitizeResponse p.2))) ∧
    sanitizeResponse .jnull = .jnull ∧
    sanitizeResponse .jundefined = .jundefined ∧
    sanitizeResponse (.jbool false) = .jbool false ∧
    sanitizeResponse (.jnum 7) = .jnum 7 :=
  c5_sanitization "k" (.jobj [("a", .jstr "<")]) 1000 0 ⟨[], [], false, none⟩
    "a<b" [.jnum 3] [("x", .jbool true)] false 7 rfl

/-- **C7.**  When every fetch attempt fails persistently and the key has no
cached entry, `getChains` resolves (does not reject) with the empty list, and
`getNetworkTPS` resolves with the zero-valued stats record (whose string
fields pass through sanitization). -/
theorem c7_typed_fallback (f g : Nat → AttemptResult) (now : Int) (nowIso : String)
    (st st2 : ApiState)
    (hp : PersistentFailure f) (hq : PersistentFailure g)
    (h1 : cacheGet st.cache "chains" = none)
    (h2 : cacheGet st2.cache "network-tps" = none) :
    (getChains f now nowIso st).1 = .ok (.jarr []) ∧
    (getNetworkTPS g now nowIso st2).1 = .ok (sanitizeResponse (networkTPSZero now nowIso)) ∧
    sanitizeResponse (networkTPSZero now nowIso) =
      .jobj [("totalTps", .jnum 0), ("chainCount", .jnum 0), ("timestamp", .jnum now),
        ("lastUpdate", .jstr (sanitizeString nowIso)), ("dataAge", .jnum 0),
        ("dataAgeUnit", .jstr "minutes"), ("updatedAt", .jstr (sanitizeString nowIso))] := by
  obtain ⟨m1, hm1⟩ := retryGo_persistent f hp 3 0 "Unknown error occurred"
  obtain ⟨m2, hm2⟩ := retryGo_persistent g hq 3 0 "Unknown error occurred"
  have hm1f : (fetchWithRetry f 3).1 = .error m1 := hm1
  have hm2f : (fetchWithRetry g 3).1 = .error m2 := hm2
  have hbody1 : getChainsBody f now nowIso = .jarr [] := by
    unfold getChainsBody
    rw [hm1f]
  have hbody2 : getNetworkTPSBody g now nowIso = networkTPSZero now nowIso := by
    unfold getNetworkTPSBody
    rw [hm2f]
  refine ⟨?_, ?_, ?_⟩
  · unfold getChains fetchWithCache
    rw [h1]
    unfold fetchMiss
    rw [hbody1]
    rfl
  · unfold getNetworkTPS fetchWithCache
    rw [h2]
    unfold fetchMiss
    rw [hbody2]
  · simp only [networkTPSZero, sanitizeResponse, sanitizeFields]
    rfl

/-- Witness for `c7_typed_fallback`: persistent HTTP 500 streams and empty
caches. -/
theorem c7_typed_fallback_witness :
    (getChains (fun _ => .response false 500 none .jnull) 0 "t" ⟨[], [], false, none⟩).1 =
      .ok (.jarr []) ∧
    (getNetworkTPS (fun _ => .response false 500 none .jnull) 0 "t"
      ⟨[], [], false, none⟩).1 = .ok (sanitizeResponse (networkTPSZero 0 "t")) ∧
    sanitizeResponse (networkTPSZero 0 "t") =
      .jobj [("totalTps", .jnum 0), ("chainCount", .jnum 0), ("timestamp", .jnum 0),
        ("lastUpdate", .jstr (sanitizeString "t")), ("dataAge", .jnum 0),
        ("dataAgeUnit", .jstr "minutes"), ("updatedAt", .jstr (sanitizeString "t"))] :=
  c7_typed_fallback (fun _ => .response false 500 none .jnull)
    (fun _ => .response false 500 none .jnull) 0 "t"
    ⟨[], [], false, none⟩ ⟨[], [], false, none⟩
    (fun _ => ⟨httpErrorMessage 500, rfl⟩) (fun _ => ⟨httpErrorMessage 500, rfl⟩)
    rfl rfl

theorem set_append_length (h : List (List LocalACP)) (c v : List LocalACP) :
    (h ++ [c]).set h.length v = h ++ [v] := by
  induction h with
  | nil => rfl
  | cons a t ih => simp [List.set, ih]

/-- **C10.**  `sortACPs` returns a reference to a freshly allocated array
(distinct from its input reference), the input array's contents are unchanged
after the call — same elements in the same order — and the fresh array holds
the comparator-sorted copy of the input. -/
theorem c10_sort_frame (h : List (List LocalACP)) (arr : Nat) (sortBy sortOrder : String)
    (ha : arr < h.length) :
    (sortACPs h arr sortBy sortOrder).2 ≠ arr ∧
    (sortACPs h arr sortBy sortOrder).1.getD arr [] = h.getD arr [] ∧
    (sortACPs h arr sortBy sortOrder).1.getD (sortACPs h arr sortBy sortOrder).2 [] =
      sortByCmp (acpCompare sortBy sortOrder) (h.getD arr []) := by
  unfold sortACPs
  rw [set_append_length]
  refine ⟨by omega, ?_, ?_⟩
  · exact List.getD_append _ _ _ _ ha
  · rw [List.getD_append_right _ _ _ _ (le_refl h.length)]
    simp

/-- Witness for `c10_sort_frame` on a one-array heap of two records. -/
theorem c10_sort_frame_witness :
    (sortACPs [[⟨"2", "b", "s", "t"⟩, ⟨"1", "a", "s", "t"⟩]] 0 "number" "asc").2 ≠ 0 ∧
    (sortACPs [[⟨"2", "b", "s", "t"⟩, ⟨"1", "a", "s", "t"⟩]] 0 "number" "asc").1.getD 0 [] =
      [[⟨"2", "b", "s", "t"⟩, ⟨"1", "a", "s", "t"⟩]].getD 0 [] ∧
    (sortACPs [[⟨"2", "b", "s", "t"⟩, ⟨"1", "a", "s", "t"⟩]] 0 "number" "asc").1.getD
        (sortACPs [[⟨"2", "b", "s", "t"⟩, ⟨"1", "a", "s", "t"⟩]] 0 "number" "asc").2 [] =
      sortByCmp (acpCompare "number" "asc")
        ([[⟨"2", "b", "s", "t"⟩, ⟨"1", "a", "s", "t"⟩]].getD 0 []) :=
  c10_sort_frame [[⟨"2", "b", "s", "t"⟩, ⟨"1", "a", "s", "t"⟩]] 0 "number" "asc"
    (by decide)

end L1Beat
